import Mathlib

/-!
Verification of the label-to-account matching engine of the
WidowsFinancial-Statements repository.

The Python sources under `src/` (chiefly `intelligent_mapper.py`,
`app_v2.py`, `src_v2/tools/extraction_tools.py` and
`src/core/enhanced_ai_processor.py`) are embedded shallowly:

* Python `dict[str, float]` account maps become association lists
  `List (String × Int)` in insertion order (dict keys are unique and
  iteration order is insertion order).  Account values are opaque
  payloads to the matcher — they are only copied, never computed with —
  and are modelled as integers (negative values allowed).
* Python floating-point scores and confidences are modelled by exact
  arithmetic over integers scaled by 100 (hundredths): the blended
  similarity `0.7·t + 0.3·p` of two integer percentages is the exact
  hundredth value `10*(7*t + 3*p)`, the 1.1 boost multiplies hundredths
  by 11/10 (exact, since blended hundredths are multiples of 10), and
  Python `int(·)` truncation of a non-negative score is division of its
  hundredth value by 100.  Oracle confidences are modelled at the
  hundredth granularity that the prompts demand (`"confidence": 0.XX`).
* pandas data frames of mapping rows become `List MappingEntry`, one
  structure per row holding the columns used by the mapper
  (`Status`, `Template Label`, `Matched Account`, `Value (2025)`,
  `Confidence`, `Score`, `AI Reasoning`, `Category`); strategies that do
  not emit a column leave it `""`.
* The remote LLM endpoints are external collaborators: they are modelled
  as arbitrary function parameters producing parsed JSON payloads
  (`OracleResponse`), quantified universally in the theorems.  A `none`
  result models a failed call (network error, all models exhausted,
  unparsable payload).

The similarity primitives `fuzz.token_set_ratio` / `fuzz.partial_ratio`
come from the third-party fuzzywuzzy library, which is not part of the
repository sources.  They are modelled from the spec (section 4.4): a
token-set measure over sorted unique tokens with a Levenshtein-style
length-normalised rate, combined 0.7/0.3 with a best-substring-window
measure, rounded half-up to an integer in [0,100], and 0 when either
input is empty.
-/

/- ### Similarity scorer (modelled from the spec, section 4.4) -/

/-- Fuel-driven longest-common-subsequence length on character lists;
structural in the fuel so that it evaluates by kernel reduction. -/
def lcsLenAux : Nat → List Char → List Char → Nat
  | _, [], _ => 0
  | _, _ :: _, [] => 0
  | 0, _ :: _, _ :: _ => 0
  | fuel + 1, a :: as, b :: bs =>
    if a = b then lcsLenAux fuel as bs + 1
    else max (lcsLenAux fuel (a :: as) bs) (lcsLenAux fuel as (b :: bs))

/-- Modelled from the spec: length of a longest common subsequence of two
character lists, the combinatorial core of the "standard Levenshtein-style
ratio" of section 4.4 (for indel edit distance `d`,
`d = |x| + |y| - 2·lcs x y`, so the similarity rate `(lensum - d)/lensum`
equals `2·lcs/(|x|+|y|)`). -/
def lcsLen (x y : List Char) : Nat :=
  lcsLenAux (x.length + y.length) x y

/-- Modelled from the spec: the Levenshtein-style similarity percentage of
two character sequences, `round(100 · 2·lcs/(|x|+|y|))` with half-up
rounding, and 0 when either sequence is empty. -/
def baseScore (x y : List Char) : Nat :=
  if x = [] ∨ y = [] then 0
  else (400 * lcsLen x y + (x.length + y.length)) / (2 * (x.length + y.length))

/-- Modelled from the spec: canonicalisation of one character before
tokenisation — alphanumeric characters (and underscore) are lowercased,
every other character becomes a blank. -/
def processChar (c : Char) : Char :=
  if c.isAlphanum || c = '_' then c.toLower else ' '

/-- Splits a character list into the maximal runs of characters on which
the separator predicate is false (the words of the list), accumulating
the current run in reversed order. -/
def wordsAux (p : Char → Bool) : List Char → List Char → List (List Char)
  | [], acc => if acc = [] then [] else [acc.reverse]
  | c :: cs, acc =>
    if p c then
      if acc = [] then wordsAux p cs [] else acc.reverse :: wordsAux p cs []
    else wordsAux p cs (c :: acc)

/-- Modelled from the spec: the tokens of a string, after per-character
canonicalisation. -/
def tokenList (s : String) : List (List Char) :=
  wordsAux (fun c => c = ' ') (s.data.map processChar) []

/-- The unique tokens of a string, in first-appearance-compatible order. -/
def dedupTokens (s : String) : List (List Char) :=
  (tokenList s).dedup

/-- Boolean lexicographic comparison of character lists (total order keyed
on the character code points). -/
def charListLe : List Char → List Char → Bool
  | [], _ => true
  | _ :: _, [] => false
  | a :: as, b :: bs =>
    if a.toNat < b.toNat then true
    else if b.toNat < a.toNat then false
    else charListLe as bs

/-- The sorting relation for tokens. -/
def tokenLe (x y : List Char) : Prop :=
  charListLe x y = true

instance : DecidableRel tokenLe := fun x y =>
  inferInstanceAs (Decidable (charListLe x y = true))

/-- Sorts a token list lexicographically. -/
def sortTokens (l : List (List Char)) : List (List Char) :=
  List.insertionSort tokenLe l

/-- The sorted common tokens of two strings. -/
def sectTokens (a b : String) : List (List Char) :=
  sortTokens ((dedupTokens a).filter fun t => decide (t ∈ dedupTokens b))

/-- The sorted tokens of the first string that are not tokens of the
second. -/
def diffTokens (a b : String) : List (List Char) :=
  sortTokens ((dedupTokens a).filter fun t => !decide (t ∈ dedupTokens b))

/-- Joins words with single blanks (no leading or trailing blank). -/
def joinSp : List (List Char) → List Char
  | [] => []
  | [w] => w
  | w :: ws => w ++ ' ' :: joinSp ws

/-- Modelled from the spec: the token-set measure of section 4.4.  With
`t0` the sorted common tokens, `t1 = t0` followed by the sorted tokens
only in `a`, and `t2 = t0` followed by the sorted tokens only in `b`, the
score is the best pairwise `baseScore` among `t0`, `t1`, `t2`. -/
def tokenSetScore (a b : String) : Nat :=
  let t0 := joinSp (sectTokens a b)
  let t1 := joinSp (sectTokens a b ++ diffTokens a b)
  let t2 := joinSp (sectTokens a b ++ diffTokens b a)
  max (baseScore t0 t1) (max (baseScore t0 t2) (baseScore t1 t2))

/-- Modelled from the spec: best `baseScore` of the shorter list against
every window of its length inside the longer list. -/
def windowScoreAux (s l : List Char) : Nat :=
  ((List.range (l.length - s.length + 1)).map
    (fun i => baseScore s ((l.drop i).take s.length))).foldr max 0

/-- Modelled from the spec: the partial/substring similarity measure of
section 4.4 — 0 when either input is empty, otherwise the best window
score of the shorter input inside the longer. -/
def windowScore (a b : String) : Nat :=
  if a.data = [] ∨ b.data = [] then 0
  else if a.data.length ≤ b.data.length then windowScoreAux a.data b.data
  else windowScoreAux b.data a.data

/-- Modelled from the spec: the combined similarity score of section 4.4,
`round(0.7 · token_set + 0.3 · partial)` with half-up rounding. -/
def fuzzScore (a b : String) : Nat :=
  (2 * (7 * tokenSetScore a b + 3 * windowScore a b) + 10) / 20

/- ### Shared string helpers (iterator-free counterparts of the Python
string methods used by the mappers) -/

/-- Python `str.lower()` (per-character, as used on these ASCII-ish
account names). -/
def lowerStr (s : String) : String :=
  String.mk (s.data.map Char.toLower)

/-- Strips leading and trailing whitespace from a character list
(Python `str.strip()`). -/
def stripWs (cs : List Char) : List Char :=
  ((cs.dropWhile fun c => c.isWhitespace).reverse.dropWhile fun c =>
    c.isWhitespace).reverse

/-- Python `label.lower().strip()`, the comparison key of the
exact-match boost in `_validate_and_enhance`. -/
def lowerStrip (s : String) : String :=
  String.mk (stripWs (s.data.map Char.toLower))

/-- Python `needle in hay` on strings: contiguous-substring test. -/
def strContains (hay needle : String) : Bool :=
  decide (needle.data <:+: hay.data)

/- ### Data model -/

/-- One row of the mapping data frame produced by every strategy
(`Status`, `Template Label`, `Matched Account`, `Value (2025)`,
`Confidence`, `Score`, `AI Reasoning`, `Category`).  Strategies that do
not emit a column leave it `""`. -/
structure MappingEntry where
  status : String
  label : String
  matchedAccount : String
  value : Int
  confidence : String
  score : Int
  reasoning : String
  category : String
deriving DecidableEq, Repr

/-- The account map extracted from the data file: account name to value,
in insertion order, keys unique. -/
abbrev AccountMap := List (String × Int)

/-- Python `excel_accounts.get(name)`: the value of the first (only)
entry whose key equals `name`. -/
def lookupAccount (accounts : AccountMap) (name : String) : Option Int :=
  (accounts.find? fun p => decide (p.1 = name)).map (·.2)

/-- A matched-account value is well formed when it is empty or an exact
key of the account map (dict membership). -/
def accountOk (accounts : AccountMap) (name : String) : Prop :=
  name = "" ∨ (lookupAccount accounts name).isSome

/-- A parsed oracle payload for one label: proposed account, confidence
in integer hundredths (the prompts demand `"confidence": 0.XX`), and a
rationale string. -/
structure OracleResponse where
  account : String
  confidence100 : Int
  reasoning : String
deriving DecidableEq, Repr

/-- The second-pass remote oracle: from a label and its current match to
a parsed payload, or `none` for a failed call. -/
abbrev Oracle := String → String → Option OracleResponse

/- ### SmartMatcher fuzzy strategy (`app_v2.py` lines 307–349) and the
fuzzy fallback of the AI mapper (`intelligent_mapper.py` lines 342–384) -/

/-- The best-match fold of the fuzzy strategy: running
`fuzz.token_set_ratio(label.lower(), account.lower())` over the accounts
in order, keeping the first strict maximum (`score > best_score`),
starting from `best_match = None`, `best_score = 0`. -/
def bestTokenSetMatch (label : String) (accounts : AccountMap) :
    Option String × Nat :=
  accounts.foldl
    (fun best p =>
      let score := tokenSetScore (lowerStr label) (lowerStr p.1)
      if best.2 < score then (some p.1, score) else best)
    (none, 0)

/-- One fuzzy-strategy row: thresholds 90/70, value looked up for the
matched account (0 when unmatched).  `reasoning` is `""` for the
`SmartMatcher` fuzzy branch and `"Fuzzy match (AI unavailable)"` for the
AI mapper's fallback. -/
def fuzzyMatchEntry (accounts : AccountMap) (reasoning : String)
    (label : String) : MappingEntry :=
  let best := bestTokenSetMatch label accounts
  let value : Int :=
    match best.1 with
    | some m => (lookupAccount accounts m).getD 0
    | none => 0
  { status := if 90 ≤ best.2 then "✅" else if 70 ≤ best.2 then "⚠️" else "❌"
    label := label
    matchedAccount := (best.1).getD ""
    value := value
    confidence :=
      if 90 ≤ best.2 then "High" else if 70 ≤ best.2 then "Medium" else "Low"
    score := (best.2 : Int)
    reasoning := reasoning
    category := "" }

/-- Embeds `SmartMatcher.match_accounts` with `method="fuzzy"`
(`app_v2.py` lines 307–349). -/
def match_accounts_fuzzy (labels : List String) (accounts : AccountMap) :
    List MappingEntry :=
  labels.map (fuzzyMatchEntry accounts "")

/-- Embeds `IntelligentMapper._fallback_fuzzy_match`
(`intelligent_mapper.py` lines 342–384). -/
def fallback_fuzzy_match (labels : List String) (accounts : AccountMap) :
    List MappingEntry :=
  labels.map (fuzzyMatchEntry accounts "Fuzzy match (AI unavailable)")

/- ### StructuredMapper (`intelligent_mapper.py` lines 601–716) -/

/-- The keyword table `StructuredMapper.account_categories`, in the
source's dict insertion order. -/
def account_categories : List (String × List String) :=
  [("revenue", ["revenue", "sales", "income", "fees", "turnover"]),
   ("expense",
    ["expense", "cost", "depreciation", "amortization", "interest", "tax"]),
   ("asset",
    ["asset", "cash", "receivable", "inventory", "property", "equipment"]),
   ("liability", ["liability", "payable", "loan", "borrowing", "debt"]),
   ("equity", ["equity", "capital", "retained", "reserve", "share"])]

/-- Embeds `StructuredMapper.categorize_account`: first category (in table
order) one of whose keywords occurs in the lowercased name, else
`"other"`. -/
def categorize_account (name : String) : String :=
  match account_categories.find? fun p =>
      p.2.any fun kw => strContains (lowerStr name) kw with
  | some p => p.1
  | none => "other"

/-- The per-category sub-dict `excel_categorized[cat]`: the accounts of
that category, in account order. -/
def categoryBucket (accounts : AccountMap) (cat : String) : AccountMap :=
  accounts.filter fun p => decide (categorize_account p.1 = cat)

/-- The candidate pool for one label: the label's category bucket, or all
accounts when that bucket is empty. -/
def structuredCandidates (accounts : AccountMap) (label : String) :
    AccountMap :=
  let inCat := categoryBucket accounts (categorize_account label)
  if inCat = [] then accounts else inCat

/-- The blended similarity of a label and an account in hundredths:
`token_set_ratio * 0.7 + partial_ratio * 0.3` on the lowercased strings
(the hundredth value of the Python float is exactly `10*(7*t + 3*p)`). -/
def blendedScore100 (label account : String) : Nat :=
  10 * (7 * tokenSetScore (lowerStr label) (lowerStr account) +
    3 * windowScore (lowerStr label) (lowerStr account))

/-- The best-match fold of the structured strategy over a candidate pool:
first strict maximum of the blended score, starting from
`best_match = None`, `best_score = 0`.  The score component is in
hundredths. -/
def bestBlendedMatch (label : String) (candidates : AccountMap) :
    Option String × Nat :=
  candidates.foldl
    (fun best p =>
      let s := blendedScore100 label p.1
      if best.2 < s then (some p.1, s) else best)
    (none, 0)

/-- Python `"revenue".title()` on the single-word category names. -/
def titleCase (s : String) : String :=
  match s.data with
  | [] => ""
  | c :: cs => String.mk (c.toUpper :: cs)

/-- One structured-strategy row (`create_structured_mappings` loop body):
candidate pool restricted to the label's category (falling back to all
accounts), best blended match, value looked up from the full account map,
10% score boost (capped at 100, i.e. 10000 hundredths) when the best
match's own category equals the label's, tiers 85/65 on the boosted
score, stored score truncated to an integer. -/
def structuredEntry (accounts : AccountMap) (label : String) :
    MappingEntry :=
  let labelCategory := categorize_account label
  let best := bestBlendedMatch label (structuredCandidates accounts label)
  let value : Int :=
    match best.1 with
    | some m => (lookupAccount accounts m).getD 0
    | none => 0
  let boosted100 : Nat :=
    match best.1 with
    | some m =>
      if categorize_account m = labelCategory then
        min 10000 (best.2 * 11 / 10)
      else best.2
    | none => best.2
  { status :=
      if 8500 ≤ boosted100 then "✅"
      else if 6500 ≤ boosted100 then "⚠️" else "❌"
    label := label
    matchedAccount := (best.1).getD ""
    value := value
    confidence :=
      if 8500 ≤ boosted100 then "High"
      else if 6500 ≤ boosted100 then "Medium" else "Low"
    score := (boosted100 / 100 : Nat)
    reasoning := ""
    category := titleCase labelCategory }

/-- Embeds `StructuredMapper.create_structured_mappings`
(`intelligent_mapper.py` lines 641–716). -/
def create_structured_mappings (labels : List String)
    (accounts : AccountMap) : List MappingEntry :=
  labels.map (structuredEntry accounts)

/- ### Normalizer (`src_v2/tools/extraction_tools.py` lines 579–591) -/

/-- The regex `^\d+\s*-\s*` removal: a leading run of digits, optional
whitespace, a dash, optional whitespace; the list is returned unchanged
when the pattern does not match. -/
def stripCode (cs : List Char) : List Char :=
  if cs.takeWhile (fun c => c.isDigit) = [] then cs
  else
    match (cs.dropWhile fun c => c.isDigit).dropWhile
        (fun c => c.isWhitespace) with
    | '-' :: rest => rest.dropWhile fun c => c.isWhitespace
    | _ => cs

/-- Python `" ".join(name.split())`: whitespace runs collapsed to single
blanks, outer whitespace dropped. -/
def collapseWs (cs : List Char) : List Char :=
  joinSp (wordsAux (fun c => c.isWhitespace) cs [])

/-- Python `name.replace("IC_", "")`: left-to-right removal of every
occurrence. -/
def removeIC : List Char → List Char
  | 'I' :: 'C' :: '_' :: rest => removeIC rest
  | c :: rest => c :: removeIC rest
  | [] => []

/-- Embeds `normalize_account_name` of `src_v2/tools/extraction_tools.py`:
account-code removal, whitespace collapse, `IC_` removal, final strip.
Note that it does not lowercase. -/
def normalize_account_name (s : String) : String :=
  String.mk (stripWs (removeIC (collapseWs (stripCode s.data))))

/- ### ValidationPass (`IntelligentMapper._validate_and_enhance`,
`intelligent_mapper.py` lines 387–433; the `StructuredMapper` copy at
lines 718–764 is textually identical) -/

/-- The per-row mutation of `_validate_and_enhance`: when the matched
account is non-empty and `label.lower().strip()` equals
`matched.lower().strip()`, force score 100 and tier High (the
duplicate-target and low-confidence scans of the source only print run
statistics and change no row). -/
def validateEntry (e : MappingEntry) : MappingEntry :=
  if e.matchedAccount ≠ "" ∧ lowerStrip e.label = lowerStrip e.matchedAccount
  then { e with score := 100, confidence := "High", status := "✅" }
  else e

/-- Embeds `IntelligentMapper._validate_and_enhance` (the `excel_accounts`
argument is unused by the mutation loop). -/
def validate_and_enhance (df : List MappingEntry) (_accounts : AccountMap) :
    List MappingEntry :=
  df.map validateEntry

/- ### Second pass (`IntelligentMapper._double_check_uncertain` and
`_focused_revalidation`, `intelligent_mapper.py` lines 435–597) -/

/-- Embeds `IntelligentMapper._find_closest_account`: exact case-insensitive
key, else first key related by substring containment in either
direction, else `""`. -/
def find_closest_account (account : String) (accounts : AccountMap) :
    String :=
  match accounts.find? fun p => decide (lowerStr p.1 = lowerStr account) with
  | some p => p.1
  | none =>
    match accounts.find? fun p =>
        strContains (lowerStr p.1) (lowerStr account) ||
        strContains (lowerStr account) (lowerStr p.1) with
    | some p => p.1
    | none => ""

/-- Embeds `IntelligentMapper._focused_revalidation`: a failed oracle call gives
`none`; otherwise, when the proposed account is non-empty and is not a
key of the account map, it is replaced by the closest-match repair
(possibly `""`), and the payload — repaired or not — is returned. -/
def focused_revalidation (oracle : Oracle) (accounts : AccountMap)
    (label currentMatch : String) : Option OracleResponse :=
  match oracle label currentMatch with
  | none => none
  | some m =>
    if m.account ≠ "" ∧ lookupAccount accounts m.account = none then
      some { m with account := find_closest_account m.account accounts }
    else some m

/-- The per-row step of `_double_check_uncertain`: rows with tier Medium
or Low or an empty match are re-validated; any returned payload (a Python
dict, always truthy) overwrites the matched account, score, rationale
(with `" [Re-validated]"` appended) and tier (90/70 on
`confidence * 100`), while the `Value (2025)` column is left untouched,
exactly as in the source. -/
def doubleCheckEntry (oracle : Oracle) (accounts : AccountMap)
    (e : MappingEntry) : MappingEntry :=
  if e.confidence = "Medium" ∨ e.confidence = "Low" ∨ e.matchedAccount = ""
  then
    match focused_revalidation oracle accounts e.label e.matchedAccount with
    | none => e
    | some m =>
      { e with
        matchedAccount := m.account
        score := m.confidence100
        reasoning := m.reasoning ++ " [Re-validated]"
        confidence :=
          if 90 ≤ m.confidence100 then "High"
          else if 70 ≤ m.confidence100 then "Medium" else "Low"
        status :=
          if 90 ≤ m.confidence100 then "✅"
          else if 70 ≤ m.confidence100 then "⚠️" else "❌" }
  else e

/-- Embeds `IntelligentMapper._double_check_uncertain`
(`intelligent_mapper.py` lines 435–490). -/
def double_check_uncertain (oracle : Oracle) (df : List MappingEntry)
    (accounts : AccountMap) : List MappingEntry :=
  df.map (doubleCheckEntry oracle accounts)

/- ### First pass (`IntelligentMapper._parse_ai_response`, `_map_batch`,
`create_mappings`, `intelligent_mapper.py` lines 32–136 and 282–320) -/

/-- A parsed first-pass AI payload: one `(label, fields)` pair per JSON
key, field defaults already applied. -/
abbrev RawResponse := List (String × OracleResponse)

/-- Embeds `IntelligentMapper._parse_ai_response` (validation part): a non-empty
proposed account that is not a key of the account map is replaced by its
closest-match repair. -/
def parse_ai_response (raw : RawResponse) (accounts : AccountMap) :
    RawResponse :=
  raw.map fun lm =>
    let account :=
      if lm.2.account ≠ "" ∧ lookupAccount accounts lm.2.account = none then
        find_closest_account lm.2.account accounts
      else lm.2.account
    (lm.1, { lm.2 with account := account })

/-- One result row of `_map_batch`: the label's payload (or the empty
default `{}` giving account `""`, confidence 0, reasoning `""`), tiers
90/70 on the confidence, value looked up for the matched account. -/
def map_batch_entry (mappings : RawResponse) (accounts : AccountMap)
    (label : String) : MappingEntry :=
  let m :=
    ((mappings.find? fun p => decide (p.1 = label)).map (·.2)).getD
      ⟨"", 0, ""⟩
  let value : Int :=
    if m.account ≠ "" then (lookupAccount accounts m.account).getD 0 else 0
  { status :=
      if (90 : Int) ≤ m.confidence100 then "✅"
      else if (70 : Int) ≤ m.confidence100 then "⚠️" else "❌"
    label := label
    matchedAccount := m.account
    value := value
    confidence :=
      if (90 : Int) ≤ m.confidence100 then "High"
      else if (70 : Int) ≤ m.confidence100 then "Medium" else "Low"
    score := m.confidence100
    reasoning := m.reasoning
    category := "" }

/-- Embeds `IntelligentMapper._map_batch`: on a successful AI call the parsed
and validated payload is folded into one row per batch label; on a failed
call the whole batch falls back to fuzzy matching. -/
def map_batch (ai : List String → Option RawResponse)
    (accounts : AccountMap) (batch : List String) : List MappingEntry :=
  match ai batch with
  | some raw => batch.map (map_batch_entry (parse_ai_response raw accounts) accounts)
  | none => fallback_fuzzy_match batch accounts

/-- Fuel-driven batching of a list into consecutive chunks of `n`
(`range(0, len(labels), batch_size)`); the fuel `l.length` suffices for
any `n ≥ 1`. -/
def chunksOfAux : Nat → Nat → List α → List (List α)
  | _, _, [] => []
  | 0, _, _ :: _ => []
  | fuel + 1, n, a :: l => (a :: l).take n :: chunksOfAux fuel n ((a :: l).drop n)

/-- The consecutive batches of size `n` of a list. -/
def chunksOf (n : Nat) (l : List α) : List (List α) :=
  chunksOfAux l.length n l

/-- Embeds `IntelligentMapper.create_mappings`: pass 1 maps each batch and
concatenates, `_validate_and_enhance` refines, and, when double-checking
is enabled, `_double_check_uncertain` re-validates uncertain rows. -/
def create_mappings (ai : List String → Option RawResponse)
    (oracle : Oracle) (labels : List String) (accounts : AccountMap)
    (batchSize : Nat) (doubleCheck : Bool) : List MappingEntry :=
  let allMappings := ((chunksOf batchSize labels).map (map_batch ai accounts)).flatten
  let df := validate_and_enhance allMappings accounts
  if doubleCheck then double_check_uncertain oracle df accounts else df

/- ### EnhancedAIProcessor input validation
(`src/core/enhanced_ai_processor.py` lines 46–58) -/

/-- The input-validation prefix of
`EnhancedAIProcessor.create_enhanced_semantic_mapping`: an empty account
map, and then an empty label list, raise a `ValueError` before any
per-label matching starts. -/
def enhanced_mapping_input_check (labels : List String)
    (accounts : AccountMap) : Except String Unit :=
  if accounts = [] then
    Except.error
      "No data accounts provided. Please ensure your data file contains valid financial data."
  else if labels = [] then
    Except.error
      "No template labels found. Please ensure your template PDF contains readable text."
  else Except.ok ()

/- ### Lemmas about the similarity scorer -/

theorem lcsLenAux_nil_right (n : Nat) (x : List Char) :
    lcsLenAux n x [] = 0 := by
  cases x <;> cases n <;> rfl

theorem lcsLenAux_fuel_eq :
    ∀ (n m : Nat) (x y : List Char), x.length + y.length ≤ n →
      x.length + y.length ≤ m → lcsLenAux n x y = lcsLenAux m x y := by
  intro n
  induction n with
  | zero =>
    intro m x y hn _
    have hx : x = [] := by
      cases x with
      | nil => rfl
      | cons a as => simp at hn
    subst hx
    cases m <;> rfl
  | succ n ih =>
    intro m x y hn hm
    cases x with
    | nil => cases m <;> rfl
    | cons a as =>
      cases y with
      | nil => rw [lcsLenAux_nil_right, lcsLenAux_nil_right]
      | cons b bs =>
        cases m with
        | zero => simp at hm
        | succ m =>
          simp only [lcsLenAux]
          simp only [List.length_cons] at hn hm
          rw [ih m as bs (by omega) (by omega),
            ih m (a :: as) bs (by simp; omega) (by simp; omega),
            ih m as (b :: bs) (by simp; omega) (by simp; omega)]

theorem lcsLen_eq_aux (n : Nat) (x y : List Char)
    (h : x.length + y.length ≤ n) : lcsLen x y = lcsLenAux n x y :=
  lcsLenAux_fuel_eq _ n x y le_rfl h

theorem lcsLen_nil_left (y : List Char) : lcsLen [] y = 0 := by
  cases y <;> rfl

theorem lcsLen_nil_right (x : List Char) : lcsLen x [] = 0 := by
  unfold lcsLen; exact lcsLenAux_nil_right _ x

theorem lcsLen_cons_cons (a : Char) (as : List Char) (b : Char)
    (bs : List Char) :
    lcsLen (a :: as) (b :: bs) =
      if a = b then lcsLen as bs + 1
      else max (lcsLen (a :: as) bs) (lcsLen as (b :: bs)) := by
  have h : lcsLen (a :: as) (b :: bs) =
      lcsLenAux (as.length + bs.length + 1 + 1) (a :: as) (b :: bs) := by
    apply lcsLen_eq_aux; simp; omega
  rw [h]
  simp only [lcsLenAux]
  rw [← lcsLen_eq_aux (as.length + bs.length + 1) as bs (by omega),
    ← lcsLen_eq_aux (as.length + bs.length + 1) (a :: as) bs (by simp; omega),
    ← lcsLen_eq_aux (as.length + bs.length + 1) as (b :: bs) (by simp; omega)]

theorem lcsLen_self : ∀ x : List Char, lcsLen x x = x.length := by
  intro x
  induction x with
  | nil => rfl
  | cons a as ih => rw [lcsLen_cons_cons, if_pos rfl, ih]; rfl

theorem lcsLen_comm_aux :
    ∀ (k : Nat) (x y : List Char), x.length + y.length ≤ k →
      lcsLen x y = lcsLen y x := by
  intro k
  induction k with
  | zero =>
    intro x y h
    have hx : x = [] := by cases x with
      | nil => rfl
      | cons a as => simp at h
    subst hx
    rw [lcsLen_nil_left, lcsLen_nil_right]
  | succ k ih =>
    intro x y h
    cases x with
    | nil => rw [lcsLen_nil_left, lcsLen_nil_right]
    | cons a as =>
      cases y with
      | nil => rw [lcsLen_nil_left, lcsLen_nil_right]
      | cons b bs =>
        simp only [List.length_cons] at h
        rw [lcsLen_cons_cons, lcsLen_cons_cons]
        by_cases hab : a = b
        · subst hab
          rw [if_pos rfl, if_pos rfl, ih as bs (by omega)]
        · rw [if_neg hab, if_neg (fun hba => hab hba.symm),
            ih (a :: as) bs (by simp; omega), ih as (b :: bs) (by simp; omega),
            Nat.max_comm]

theorem lcsLen_comm (x y : List Char) : lcsLen x y = lcsLen y x :=
  lcsLen_comm_aux (x.length + y.length) x y le_rfl

theorem baseScore_comm (x y : List Char) : baseScore x y = baseScore y x := by
  unfold baseScore
  rw [lcsLen_comm, Nat.add_comm x.length y.length]
  by_cases hx : x = [] <;> by_cases hy : y = [] <;> simp [hx, hy]

theorem baseScore_self (x : List Char) (h : x ≠ []) : baseScore x x = 100 := by
  unfold baseScore
  rw [if_neg (by simp [h]), lcsLen_self]
  have h1 : 400 * x.length + (x.length + x.length) = 402 * x.length := by ring
  have h2 : 2 * (x.length + x.length) = 4 * x.length := by ring
  rw [h1, h2, Nat.mul_comm 402, Nat.mul_comm 4,
    Nat.mul_div_mul_left _ _ (List.length_pos.mpr h)]

theorem wordsAux_mem_ne_nil (p : Char → Bool) :
    ∀ (l acc : List Char) (w : List Char), w ∈ wordsAux p l acc → w ≠ [] := by
  intro l
  induction l with
  | nil =>
    intro acc w hw
    by_cases hacc : acc = []
    · simp [wordsAux, hacc] at hw
    · simp [wordsAux, hacc] at hw
      simp [hw, hacc]
  | cons c cs ih =>
    intro acc w hw
    simp only [wordsAux] at hw
    by_cases hc : p c
    · rw [if_pos hc] at hw
      by_cases hacc : acc = []
      · rw [if_pos hacc] at hw; exact ih [] w hw
      · rw [if_neg hacc] at hw
        rcases List.mem_cons.mp hw with h | h
        · simp [h, hacc]
        · exact ih [] w h
    · rw [if_neg hc] at hw
      exact ih (c :: acc) w hw

theorem wordsAux_ne_nil_of_acc (p : Char → Bool) :
    ∀ (l acc : List Char), acc ≠ [] → wordsAux p l acc ≠ [] := by
  intro l
  induction l with
  | nil => intro acc hacc; simp [wordsAux, hacc]
  | cons c cs ih =>
    intro acc hacc
    simp only [wordsAux]
    by_cases hc : p c
    · simp [hc, hacc]
    · rw [if_neg hc]
      exact ih (c :: acc) (by simp)

theorem wordsAux_ne_nil (p : Char → Bool) :
    ∀ (l acc : List Char) (c : Char), c ∈ l → p c = false →
      wordsAux p l acc ≠ [] := by
  intro l
  induction l with
  | nil => intro acc c hc; simp at hc
  | cons d ds ih =>
    intro acc c hc hpc
    simp only [wordsAux]
    by_cases hd : p d
    · have hcd : c ≠ d := fun h => by rw [h, hd] at hpc; cases hpc
      have hcds : c ∈ ds := by
        rcases List.mem_cons.mp hc with h | h
        · exact absurd h hcd
        · exact h
      rw [if_pos hd]
      by_cases hacc : acc = []
      · rw [if_pos hacc]; exact ih [] c hcds hpc
      · rw [if_neg hacc]; simp
    · rw [if_neg hd]
      exact wordsAux_ne_nil_of_acc p ds (d :: acc) (by simp)

theorem nil_not_mem_dedupTokens (s : String) : [] ∉ dedupTokens s := by
  intro h
  have h1 : ([] : List Char) ∈ tokenList s := List.mem_dedup.mp h
  exact wordsAux_mem_ne_nil _ _ _ _ h1 rfl

theorem dedupTokens_ne_nil (s : String) (c : Char) (hc : c ∈ s.data)
    (hp : processChar c ≠ ' ') : dedupTokens s ≠ [] := by
  intro h
  have h1 : tokenList s = [] := (List.dedup_eq_nil _).mp h
  have h2 : processChar c ∈ s.data.map processChar := List.mem_map_of_mem _ hc
  exact wordsAux_ne_nil _ _ [] (processChar c) h2 (by simp [hp]) h1

theorem charListLe_total :
    ∀ x y : List Char, charListLe x y = true ∨ charListLe y x = true := by
  intro x
  induction x with
  | nil => intro y; left; rfl
  | cons a as ih =>
    intro y
    cases y with
    | nil => right; rfl
    | cons b bs =>
      simp only [charListLe]
      rcases Nat.lt_trichotomy a.toNat b.toNat with h | h | h
      · left; simp [h]
      · rw [if_neg (by omega), if_neg (by omega), if_neg (by omega),
          if_neg (by omega)]
        exact ih bs
      · right; simp [h]

theorem charListLe_trans :
    ∀ x y z : List Char, charListLe x y = true → charListLe y z = true →
      charListLe x z = true := by
  intro x
  induction x with
  | nil => intro y z _ _; rfl
  | cons a as ih =>
    intro y z hxy hyz
    cases y with
    | nil => simp [charListLe] at hxy
    | cons b bs =>
      cases z with
      | nil => simp [charListLe] at hyz
      | cons c cs =>
        simp only [charListLe] at hxy hyz ⊢
        rcases Nat.lt_trichotomy a.toNat b.toNat with h1 | h1 | h1 <;>
          rcases Nat.lt_trichotomy b.toNat c.toNat with h2 | h2 | h2 <;>
          first
          | (rw [if_pos (by omega)])
          | (rw [if_neg (by omega), if_pos (by omega)] at hxy ⊢ <;> cases hxy)
          | skip
        all_goals try simp [if_neg (by omega : ¬ a.toNat < b.toNat),
          if_pos (by omega : b.toNat < a.toNat)] at hxy
        all_goals try simp [if_neg (by omega : ¬ b.toNat < c.toNat),
          if_pos (by omega : c.toNat < b.toNat)] at hyz
        rw [if_neg (by omega), if_neg (by omega)]
        rw [if_neg (by omega), if_neg (by omega)] at hxy
        rw [if_neg (by omega), if_neg (by omega)] at hyz
        exact ih bs cs hxy hyz

theorem charListLe_antisymm :
    ∀ x y : List Char, charListLe x y = true → charListLe y x = true →
      x = y := by
  intro x
  induction x with
  | nil =>
    intro y _ hyx
    cases y with
    | nil => rfl
    | cons b bs => simp [charListLe] at hyx
  | cons a as ih =>
    intro y hxy hyx
    cases y with
    | nil => simp [charListLe] at hxy
    | cons b bs =>
      simp only [charListLe] at hxy hyx
      rcases Nat.lt_trichotomy a.toNat b.toNat with h | h | h
      · rw [if_neg (by omega), if_pos (by omega)] at hyx; cases hyx
      · have hab : a = b := Char.eq_of_val_eq (UInt32.ext h)
        subst hab
        rw [if_neg (by omega), if_neg (by omega)] at hxy hyx
        rw [ih bs hxy hyx]
      · rw [if_neg (by omega), if_pos (by omega)] at hxy; cases hxy

instance : IsTotal (List Char) tokenLe :=
  ⟨charListLe_total⟩

instance : IsTrans (List Char) tokenLe :=
  ⟨charListLe_trans⟩

instance : IsAntisymm (List Char) tokenLe :=
  ⟨charListLe_antisymm⟩

theorem sortTokens_sorted (l : List (List Char)) :
    List.Sorted tokenLe (sortTokens l) :=
  List.sorted_insertionSort tokenLe l

theorem sortTokens_perm (l : List (List Char)) : List.Perm (sortTokens l) l :=
  List.perm_insertionSort tokenLe l

theorem sortTokens_eq_of_perm {l₁ l₂ : List (List Char)} (h : List.Perm l₁ l₂) :
    sortTokens l₁ = sortTokens l₂ :=
  List.eq_of_perm_of_sorted
    (((sortTokens_perm l₁).trans h).trans (sortTokens_perm l₂).symm)
    (sortTokens_sorted l₁) (sortTokens_sorted l₂)

theorem sectTokens_comm (a b : String) : sectTokens a b = sectTokens b a := by
  unfold sectTokens
  apply sortTokens_eq_of_perm
  apply (List.perm_ext_iff_of_nodup
    ((List.nodup_dedup _).filter _) ((List.nodup_dedup _).filter _)).mpr
  intro t
  simp only [List.mem_filter, decide_eq_true_eq]
  exact and_comm

theorem sectTokens_self (a : String) :
    sectTokens a a = sortTokens (dedupTokens a) := by
  unfold sectTokens
  congr 1
  exact List.filter_eq_self.mpr fun t ht => by simp [ht]

theorem diffTokens_self (a : String) : diffTokens a a = [] := by
  unfold diffTokens
  have h : (dedupTokens a).filter
      (fun t => !decide (t ∈ dedupTokens a)) = [] := by
    rw [List.filter_eq_nil_iff]
    intro t ht
    simp [ht]
  rw [h]
  rfl

theorem joinSp_ne_nil (ws : List (List Char)) (h : ws ≠ [])
    (hw : ∀ w ∈ ws, w ≠ []) : joinSp ws ≠ [] := by
  match ws with
  | [] => exact absurd rfl h
  | [w] => exact hw w (by simp)
  | w :: w' :: t => simp [joinSp]

theorem tokenSetScore_self (a : String) (h : dedupTokens a ≠ []) :
    tokenSetScore a a = 100 := by
  unfold tokenSetScore
  dsimp only
  rw [sectTokens_self, diffTokens_self, List.append_nil]
  have hne : joinSp (sortTokens (dedupTokens a)) ≠ [] := by
    apply joinSp_ne_nil
    · intro hs
      have := (sortTokens_perm (dedupTokens a)).length_eq
      rw [hs] at this
      exact h (List.length_eq_zero.mp this.symm)
    · intro w hw
      have hmem : w ∈ dedupTokens a :=
        (sortTokens_perm (dedupTokens a)).mem_iff.mp hw
      intro hnil
      rw [hnil] at hmem
      exact nil_not_mem_dedupTokens a hmem
  rw [baseScore_self _ hne]
  simp

theorem tokenSetScore_comm (a b : String) :
    tokenSetScore a b = tokenSetScore b a := by
  unfold tokenSetScore
  dsimp only
  rw [sectTokens_comm b a]
  rw [baseScore_comm (joinSp (sectTokens a b ++ diffTokens b a))
    (joinSp (sectTokens a b ++ diffTokens a b))]
  omega

theorem windowScoreAux_self (s : List Char) :
    windowScoreAux s s = baseScore s s := by
  unfold windowScoreAux
  rw [Nat.sub_self]
  simp [List.range_succ, List.drop_zero, List.take_length]

theorem windowScore_self (a : String) (h : a.data ≠ []) :
    windowScore a a = 100 := by
  unfold windowScore
  rw [if_neg (by simp [h]), if_pos le_rfl, windowScoreAux_self,
    baseScore_self _ h]

theorem windowScoreAux_eq_of_length_eq (x y : List Char)
    (h : x.length = y.length) : windowScoreAux x y = baseScore x y := by
  unfold windowScoreAux
  rw [h, Nat.sub_self]
  simp only [List.range_succ, List.range_zero, List.nil_append,
    List.map_cons, List.map_nil, List.foldr_cons, List.foldr_nil,
    List.drop_zero]
  rw [← h, List.take_of_length_le (by omega)]
  exact Nat.max_zero _

theorem windowScore_comm (a b : String) :
    windowScore a b = windowScore b a := by
  by_cases ha : a.data = []
  · by_cases hb : b.data = [] <;> simp [windowScore, ha, hb]
  · by_cases hb : b.data = []
    · simp [windowScore, ha, hb]
    · unfold windowScore
      rw [if_neg (show ¬(a.data = [] ∨ b.data = []) by simp [ha, hb]),
        if_neg (show ¬(b.data = [] ∨ a.data = []) by simp [ha, hb])]
      rcases Nat.lt_trichotomy a.data.length b.data.length with h | h | h
      · rw [if_pos (le_of_lt h), if_neg (not_le.mpr h)]
      · rw [if_pos (le_of_eq h), if_pos (le_of_eq h.symm),
          windowScoreAux_eq_of_length_eq _ _ h,
          windowScoreAux_eq_of_length_eq _ _ h.symm, baseScore_comm]
      · rw [if_neg (not_le.mpr h), if_pos (le_of_lt h)]

theorem fuzzScore_comm (a b : String) : fuzzScore a b = fuzzScore b a := by
  unfold fuzzScore
  rw [tokenSetScore_comm, windowScore_comm]

theorem fuzzScore_self (s : String)
    (h : ∃ c ∈ s.data, processChar c ≠ ' ') : fuzzScore s s = 100 := by
  obtain ⟨c, hc, hp⟩ := h
  have hd : s.data ≠ [] := by
    intro hnil
    rw [hnil] at hc
    exact absurd hc (List.not_mem_nil c)
  unfold fuzzScore
  rw [tokenSetScore_self s (dedupTokens_ne_nil s c hc hp),
    windowScore_self s hd]

/- ### Lemmas about the validation pass -/

theorem validateEntry_label (e : MappingEntry) :
    (validateEntry e).label = e.label := by
  unfold validateEntry; split <;> rfl

theorem validateEntry_matchedAccount (e : MappingEntry) :
    (validateEntry e).matchedAccount = e.matchedAccount := by
  unfold validateEntry; split <;> rfl

theorem validateEntry_value (e : MappingEntry) :
    (validateEntry e).value = e.value := by
  unfold validateEntry; split <;> rfl

theorem validateEntry_idem (e : MappingEntry) :
    validateEntry (validateEntry e) = validateEntry e := by
  by_cases h : e.matchedAccount ≠ "" ∧
      lowerStrip e.label = lowerStrip e.matchedAccount
  · have h1 : validateEntry e =
        { e with score := 100, confidence := "High", status := "✅" } := by
      rw [validateEntry, if_pos h]
    rw [h1, validateEntry, if_pos (by simpa using h)]
  · have h1 : validateEntry e = e := by rw [validateEntry, if_neg h]
    rw [h1, h1]

/- ### Lemmas about the second pass -/

theorem doubleCheckEntry_not_uncertain (oracle : Oracle)
    (accounts : AccountMap) (e : MappingEntry)
    (h : ¬(e.confidence = "Medium" ∨ e.confidence = "Low" ∨
      e.matchedAccount = "")) :
    doubleCheckEntry oracle accounts e = e := by
  rw [doubleCheckEntry, if_neg h]

theorem doubleCheckEntry_label (oracle : Oracle) (accounts : AccountMap)
    (e : MappingEntry) : (doubleCheckEntry oracle accounts e).label = e.label := by
  unfold doubleCheckEntry
  by_cases h : e.confidence = "Medium" ∨ e.confidence = "Low" ∨
      e.matchedAccount = ""
  · rw [if_pos h]
    cases focused_revalidation oracle accounts e.label e.matchedAccount <;> rfl
  · rw [if_neg h]

/- ### Lemmas about batching -/

theorem chunksOfAux_flatten :
    ∀ (fuel n : Nat) (l : List α), n ≠ 0 → l.length ≤ fuel →
      (chunksOfAux fuel n l).flatten = l := by
  intro fuel
  induction fuel with
  | zero =>
    intro n l hn hl
    cases l with
    | nil => rfl
    | cons a t => simp at hl
  | succ fuel ih =>
    intro n l hn hl
    cases l with
    | nil => rfl
    | cons a t =>
      simp only [chunksOfAux, List.flatten_cons]
      rw [ih n ((a :: t).drop n) hn
        (by simp only [List.length_drop]; simp at hl; simp; omega),
        List.take_append_drop]

theorem chunksOf_flatten (n : Nat) (l : List α) (hn : n ≠ 0) :
    (chunksOf n l).flatten = l :=
  chunksOfAux_flatten l.length n l hn le_rfl

/- ### Lemmas about the first pass -/

theorem map_batch_entry_label (mappings : RawResponse)
    (accounts : AccountMap) (label : String) :
    (map_batch_entry mappings accounts label).label = label := rfl

theorem fuzzyMatchEntry_label (accounts : AccountMap) (reasoning : String)
    (label : String) :
    (fuzzyMatchEntry accounts reasoning label).label = label := rfl

theorem structuredEntry_label (accounts : AccountMap) (label : String) :
    (structuredEntry accounts label).label = label := rfl

theorem map_label_of_entry {f : String → MappingEntry}
    (hf : ∀ l, (f l).label = l) (batch : List String) :
    (batch.map f).map (fun e => e.label) = batch := by
  rw [List.map_map]
  have hcomp : (fun e : MappingEntry => e.label) ∘ f = id := funext hf
  rw [hcomp, List.map_id]

theorem map_batch_labels (ai : List String → Option RawResponse)
    (accounts : AccountMap) (batch : List String) :
    (map_batch ai accounts batch).map (fun e => e.label) = batch := by
  unfold map_batch
  cases ai batch with
  | some raw =>
    exact map_label_of_entry (map_batch_entry_label _ accounts) batch
  | none =>
    exact map_label_of_entry (fuzzyMatchEntry_label accounts _) batch

/- ### Membership invariant: matched accounts are `""` or existing keys -/

theorem lookupAccount_isSome_of_mem (accounts : AccountMap)
    (p : String × Int) (h : p ∈ accounts) :
    (lookupAccount accounts p.1).isSome := by
  have hf : (accounts.find? fun q => decide (q.1 = p.1)).isSome :=
    List.find?_isSome.mpr ⟨p, h, by simp⟩
  unfold lookupAccount
  cases hq : accounts.find? fun q => decide (q.1 = p.1) with
  | none => rw [hq] at hf; cases hf
  | some q => rfl

theorem find_closest_account_ok (account : String) (accounts : AccountMap) :
    accountOk accounts (find_closest_account account accounts) := by
  unfold find_closest_account
  cases h1 : accounts.find? fun p => decide (lowerStr p.1 = lowerStr account) with
  | some p =>
    exact Or.inr (lookupAccount_isSome_of_mem accounts p
      (List.mem_of_find?_eq_some h1))
  | none =>
    cases h2 : accounts.find? fun p =>
        strContains (lowerStr p.1) (lowerStr account) ||
        strContains (lowerStr account) (lowerStr p.1) with
    | some p =>
      exact Or.inr (lookupAccount_isSome_of_mem accounts p
        (List.mem_of_find?_eq_some h2))
    | none => exact Or.inl rfl

theorem focused_revalidation_ok (oracle : Oracle) (accounts : AccountMap)
    (label cur : String) (m : OracleResponse)
    (h : focused_revalidation oracle accounts label cur = some m) :
    accountOk accounts m.account := by
  cases horacle : oracle label cur with
  | none =>
    have hval : focused_revalidation oracle accounts label cur = none := by
      unfold focused_revalidation; rw [horacle]
    rw [hval] at h; cases h
  | some m0 =>
    have hval : focused_revalidation oracle accounts label cur =
        if m0.account ≠ "" ∧ lookupAccount accounts m0.account = none then
          some { m0 with account := find_closest_account m0.account accounts }
        else some m0 := by
      unfold focused_revalidation; rw [horacle]
    rw [hval] at h
    by_cases hc : m0.account ≠ "" ∧ lookupAccount accounts m0.account = none
    · rw [if_pos hc] at h
      have hm : m = { m0 with account := find_closest_account m0.account accounts } :=
        (Option.some_inj.mp h).symm
      rw [hm]
      exact find_closest_account_ok m0.account accounts
    · rw [if_neg hc] at h
      have hm : m = m0 := (Option.some_inj.mp h).symm
      push_neg at hc
      rw [hm]
      by_cases hz : m0.account = ""
      · exact Or.inl hz
      · exact Or.inr (Option.isSome_iff_ne_none.mpr (hc hz))

theorem doubleCheckEntry_ok (oracle : Oracle) (accounts : AccountMap)
    (e : MappingEntry) (h : accountOk accounts e.matchedAccount) :
    accountOk accounts (doubleCheckEntry oracle accounts e).matchedAccount := by
  unfold doubleCheckEntry
  by_cases hc : e.confidence = "Medium" ∨ e.confidence = "Low" ∨
      e.matchedAccount = ""
  · rw [if_pos hc]
    cases hfr : focused_revalidation oracle accounts e.label e.matchedAccount with
    | none => exact h
    | some m => exact focused_revalidation_ok oracle accounts _ _ m hfr
  · rw [if_neg hc]; exact h

theorem validateEntry_ok (accounts : AccountMap) (e : MappingEntry)
    (h : accountOk accounts e.matchedAccount) :
    accountOk accounts (validateEntry e).matchedAccount := by
  rw [validateEntry_matchedAccount]; exact h

theorem parse_ai_response_ok (raw : RawResponse) (accounts : AccountMap)
    (lm : String × OracleResponse) (h : lm ∈ parse_ai_response raw accounts) :
    accountOk accounts lm.2.account := by
  unfold parse_ai_response at h
  obtain ⟨lm0, _, hlm⟩ := List.mem_map.mp h
  by_cases hc : lm0.2.account ≠ "" ∧ lookupAccount accounts lm0.2.account = none
  · rw [if_pos hc] at hlm
    rw [← hlm]
    exact find_closest_account_ok lm0.2.account accounts
  · rw [if_neg hc] at hlm
    rw [← hlm]
    push_neg at hc
    by_cases hz : lm0.2.account = ""
    · exact Or.inl hz
    · exact Or.inr (Option.isSome_iff_ne_none.mpr (hc hz))

theorem map_batch_entry_ok (mappings : RawResponse) (accounts : AccountMap)
    (label : String)
    (hm : ∀ lm ∈ mappings, accountOk accounts lm.2.account) :
    accountOk accounts (map_batch_entry mappings accounts label).matchedAccount := by
  unfold map_batch_entry
  cases hfind : mappings.find? fun p => decide (p.1 = label) with
  | none => exact Or.inl rfl
  | some p => exact hm p (List.mem_of_find?_eq_some hfind)

theorem bestFold_some_mem (score : String → Nat) :
    ∀ (l : AccountMap) (init : Option String × Nat) (m : String),
      (l.foldl
        (fun best p =>
          let s := score p.1
          if best.2 < s then (some p.1, s) else best) init).1 = some m →
      init.1 = some m ∨ ∃ p ∈ l, p.1 = m := by
  intro l
  induction l with
  | nil => intro init m h; exact Or.inl h
  | cons q t ih =>
    intro init m h
    rw [List.foldl_cons] at h
    rcases ih _ m h with h1 | h1
    · dsimp only at h1
      by_cases hq : init.2 < score q.1
      · rw [if_pos hq] at h1
        exact Or.inr ⟨q, List.mem_cons_self q t, Option.some_inj.mp h1⟩
      · rw [if_neg hq] at h1
        exact Or.inl h1
    · obtain ⟨p, hp, hpm⟩ := h1
      exact Or.inr ⟨p, List.mem_cons_of_mem q hp, hpm⟩

theorem bestTokenSetMatch_some_mem (label : String) (accounts : AccountMap)
    (m : String) (h : (bestTokenSetMatch label accounts).1 = some m) :
    ∃ p ∈ accounts, p.1 = m := by
  rcases bestFold_some_mem
      (fun a => tokenSetScore (lowerStr label) (lowerStr a))
      accounts (none, 0) m h with h1 | h1
  · cases h1
  · exact h1

theorem bestBlendedMatch_some_mem (label : String) (candidates : AccountMap)
    (m : String) (h : (bestBlendedMatch label candidates).1 = some m) :
    ∃ p ∈ candidates, p.1 = m := by
  rcases bestFold_some_mem (fun a => blendedScore100 label a)
      candidates (none, 0) m h with h1 | h1
  · cases h1
  · exact h1

theorem structuredCandidates_subset (accounts : AccountMap) (label : String)
    (p : String × Int) (h : p ∈ structuredCandidates accounts label) :
    p ∈ accounts := by
  unfold structuredCandidates at h
  by_cases hb : categoryBucket accounts (categorize_account label) = []
  · rw [if_pos hb] at h; exact h
  · rw [if_neg hb] at h
    exact (List.mem_filter.mp h).1

theorem fuzzyMatchEntry_ok (accounts : AccountMap) (reasoning label : String) :
    accountOk accounts (fuzzyMatchEntry accounts reasoning label).matchedAccount := by
  simp only [fuzzyMatchEntry]
  cases hb : (bestTokenSetMatch label accounts).1 with
  | none => exact Or.inl rfl
  | some m =>
    obtain ⟨p, hp, hpm⟩ := bestTokenSetMatch_some_mem label accounts m hb
    exact Or.inr (by
      show (lookupAccount accounts m).isSome
      rw [← hpm]; exact lookupAccount_isSome_of_mem accounts p hp)

theorem structuredEntry_ok (accounts : AccountMap) (label : String) :
    accountOk accounts (structuredEntry accounts label).matchedAccount := by
  simp only [structuredEntry]
  cases hb : (bestBlendedMatch label (structuredCandidates accounts label)).1 with
  | none => exact Or.inl rfl
  | some m =>
    obtain ⟨p, hp, hpm⟩ :=
      bestBlendedMatch_some_mem label (structuredCandidates accounts label) m hb
    have hmem : p ∈ accounts := structuredCandidates_subset accounts label p hp
    exact Or.inr (by
      show (lookupAccount accounts m).isSome
      rw [← hpm]; exact lookupAccount_isSome_of_mem accounts p hmem)

theorem map_batch_ok (ai : List String → Option RawResponse)
    (accounts : AccountMap) (batch : List String) (e : MappingEntry)
    (h : e ∈ map_batch ai accounts batch) :
    accountOk accounts e.matchedAccount := by
  unfold map_batch at h
  cases hai : ai batch with
  | some raw =>
    rw [hai] at h
    obtain ⟨l, _, hl⟩ := List.mem_map.mp h
    rw [← hl]
    exact map_batch_entry_ok _ accounts l
      (fun lm hlm => parse_ai_response_ok raw accounts lm hlm)
  | none =>
    rw [hai] at h
    unfold fallback_fuzzy_match at h
    obtain ⟨l, _, hl⟩ := List.mem_map.mp h
    rw [← hl]
    exact fuzzyMatchEntry_ok accounts _ l

/- ### Claim theorems -/

/-- C6: the validation pass is idempotent — applying
`_validate_and_enhance` twice to any mapping set yields exactly the
mapping set obtained by applying it once. -/
theorem validate_and_enhance_idempotent (df : List MappingEntry)
    (accounts : AccountMap) :
    validate_and_enhance (validate_and_enhance df accounts) accounts =
      validate_and_enhance df accounts := by
  unfold validate_and_enhance
  rw [List.map_map]
  exact List.map_congr_left fun e _ => validateEntry_idem e

theorem double_check_length (oracle : Oracle) (df : List MappingEntry)
    (accounts : AccountMap) :
    (double_check_uncertain oracle df accounts).length = df.length := by
  unfold double_check_uncertain
  exact List.length_map df _

/-- C9: the second-pass re-validation modifies only entries whose tier is
Medium or Low or whose matched account is empty — an entry that enters
`_double_check_uncertain` with tier High and a non-empty matched account
leaves the pass with all of its fields unchanged. -/
theorem second_pass_preserves_high (oracle : Oracle) (accounts : AccountMap)
    (df : List MappingEntry) (i : Fin df.length)
    (h1 : (df.get i).confidence = "High")
    (h2 : (df.get i).matchedAccount ≠ "") :
    (double_check_uncertain oracle df accounts).get
      ⟨i, by rw [double_check_length]; exact i.isLt⟩ = df.get i := by
  have hstep : (double_check_uncertain oracle df accounts).get
      ⟨i, by rw [double_check_length]; exact i.isLt⟩ =
      doubleCheckEntry oracle accounts (df.get i) := by
    unfold double_check_uncertain
    simp [List.get_eq_getElem, List.getElem_map]
  rw [hstep]
  apply doubleCheckEntry_not_uncertain
  rw [h1]
  simp only [List.get_eq_getElem] at h2
  simp [h2]

/-- C9 witness: a concrete High-tier matched row is returned untouched by
the second pass. -/
theorem second_pass_preserves_high_witness :
    (double_check_uncertain (fun _ _ => some ⟨"zzz", 20, "r"⟩)
      [⟨"✅", "Cash total", "Cash", 5, "High", 100, "", ""⟩]
      [("Cash", 5)]).get ⟨0, by decide⟩ =
      ⟨"✅", "Cash total", "Cash", 5, "High", 100, "", ""⟩ := by
  have h := second_pass_preserves_high (fun _ _ => some ⟨"zzz", 20, "r"⟩)
    [("Cash", 5)] [⟨"✅", "Cash total", "Cash", 5, "High", 100, "", ""⟩]
    ⟨0, by decide⟩ (by decide) (by decide)
  exact h.trans (by decide)

/-- C3 counterexample: the label `"40050 - Trade Sales"` and the account
`"Trade Sales"` have identical Normalizer normalizations (identical even
after lowercasing), yet a validated row matching them keeps its prior
score 75 and tier Medium — the exact-match boost does not fire, because
the code compares only `lower().strip()` of the raw strings. -/
theorem validate_normalized_label_not_boosted :
    normalize_account_name "40050 - Trade Sales" =
      normalize_account_name "Trade Sales" ∧
    lowerStr (normalize_account_name "40050 - Trade Sales") =
      lowerStr (normalize_account_name "Trade Sales") ∧
    validate_and_enhance
      [⟨"⚠️", "40050 - Trade Sales", "Trade Sales", 1000, "Medium", 75, "ai", ""⟩]
      [("Trade Sales", 1000)] =
      [⟨"⚠️", "40050 - Trade Sales", "Trade Sales", 1000, "Medium", 75, "ai", ""⟩] := by
  decide

/-- C3 (amended): after the validation pass, every entry whose matched
account is non-empty and whose `label.lower().strip()` equals
`matched.lower().strip()` (the comparison the code actually performs: no
account-code stripping, no `IC_` removal, no inner-whitespace collapse)
has score 100 and tier High. -/
theorem validate_exact_match_boost (df : List MappingEntry)
    (accounts : AccountMap) (e : MappingEntry)
    (he : e ∈ validate_and_enhance df accounts)
    (h1 : e.matchedAccount ≠ "")
    (h2 : lowerStrip e.label = lowerStrip e.matchedAccount) :
    e.score = 100 ∧ e.confidence = "High" := by
  unfold validate_and_enhance at he
  obtain ⟨e0, _, he0⟩ := List.mem_map.mp he
  by_cases hc : e0.matchedAccount ≠ "" ∧
      lowerStrip e0.label = lowerStrip e0.matchedAccount
  · rw [validateEntry, if_pos hc] at he0
    rw [← he0]
    exact ⟨rfl, rfl⟩
  · rw [validateEntry, if_neg hc] at he0
    rw [← he0] at h1 h2
    exact absurd ⟨h1, h2⟩ hc

/-- C3 witness: a concrete lower-strip-equal row is boosted to score 100,
tier High. -/
theorem validate_exact_match_boost_witness :
    (⟨"✅", "Cash", "Cash", 5, "High", 100, "", ""⟩ : MappingEntry).score = 100 ∧
    (⟨"✅", "Cash", "Cash", 5, "High", 100, "", ""⟩ : MappingEntry).confidence = "High" :=
  validate_exact_match_boost [⟨"❌", "Cash", "Cash", 5, "Low", 40, "", ""⟩]
    [("Cash", 5)] ⟨"✅", "Cash", "Cash", 5, "High", 100, "", ""⟩
    (by decide) (by decide) (by decide)

/-- C4 counterexample: an oracle proposal `"zzz"` that is absent from the
account set and unrepairable is not discarded — the row's prior matched
account `"Cash"`, score 80, tier Medium and rationale are overwritten
(matched account becomes empty, score/tier recomputed from the oracle
confidence, `" [Re-validated]"` appended), while the value column keeps
500. -/
theorem discarded_proposal_not_kept :
    ("zzz" : String) ≠ "" ∧
    lookupAccount [("Cash", 500)] "zzz" = none ∧
    find_closest_account "zzz" [("Cash", 500)] = "" ∧
    doubleCheckEntry (fun _ _ => some ⟨"zzz", 20, "second"⟩) [("Cash", 500)]
      ⟨"⚠️", "Net Income", "Cash", 500, "Medium", 80, "first", ""⟩ =
      ⟨"❌", "Net Income", "", 500, "Low", 20, "second [Re-validated]", ""⟩ ∧
    doubleCheckEntry (fun _ _ => some ⟨"zzz", 20, "second"⟩) [("Cash", 500)]
      ⟨"⚠️", "Net Income", "Cash", 500, "Medium", 80, "first", ""⟩ ≠
      ⟨"⚠️", "Net Income", "Cash", 500, "Medium", 80, "first", ""⟩ := by
  decide

/-- C4 (amended): when the oracle's proposed account is non-empty, absent
from the account set, and closest-match repair fails, the repaired empty
proposal is applied rather than discarded: the uncertain entry's matched
account becomes `""`, its score and tier are recomputed from the oracle
confidence, and `" [Re-validated]"` is appended to the rationale; the
value column alone keeps its prior contents. -/
theorem discarded_proposal_applied_as_unmatched (oracle : Oracle)
    (accounts : AccountMap) (e : MappingEntry) (resp : OracleResponse)
    (hu : e.confidence = "Medium" ∨ e.confidence = "Low" ∨
      e.matchedAccount = "")
    (ho : oracle e.label e.matchedAccount = some resp)
    (hne : resp.account ≠ "")
    (habs : lookupAccount accounts resp.account = none)
    (hrep : find_closest_account resp.account accounts = "") :
    doubleCheckEntry oracle accounts e =
      { e with
        matchedAccount := ""
        score := resp.confidence100
        reasoning := resp.reasoning ++ " [Re-validated]"
        confidence :=
          if 90 ≤ resp.confidence100 then "High"
          else if 70 ≤ resp.confidence100 then "Medium" else "Low"
        status :=
          if 90 ≤ resp.confidence100 then "✅"
          else if 70 ≤ resp.confidence100 then "⚠️" else "❌" } := by
  have hval : focused_revalidation oracle accounts e.label e.matchedAccount =
      some { resp with account := "" } := by
    unfold focused_revalidation
    rw [ho]
    show (if resp.account ≠ "" ∧ lookupAccount accounts resp.account = none
        then some { resp with account := find_closest_account resp.account accounts }
        else some resp) = some { resp with account := "" }
    rw [if_pos ⟨hne, habs⟩, hrep]
  rw [doubleCheckEntry, if_pos hu, hval]

/-- C4 witness: the amended behaviour at the concrete failing proposal. -/
theorem discarded_proposal_applied_witness :
    doubleCheckEntry (fun _ _ => some ⟨"zzz", 20, "second"⟩) [("Cash", 500)]
      ⟨"⚠️", "Office Rent", "Cash", 500, "Medium", 80, "first", ""⟩ =
      ⟨"❌", "Office Rent", "", 500, "Low", 20, "second [Re-validated]", ""⟩ := by
  have h := discarded_proposal_applied_as_unmatched
    (fun _ _ => some ⟨"zzz", 20, "second"⟩) [("Cash", 500)]
    ⟨"⚠️", "Office Rent", "Cash", 500, "Medium", 80, "first", ""⟩
    ⟨"zzz", 20, "second"⟩ (by decide) rfl (by decide) (by decide) (by decide)
  exact h.trans (by decide)

/-- C8 counterexample: the blank string is non-empty, yet its self-score
is 30, not 100 — it has no tokens, so the token-set component is 0 while
the substring component is 100. -/
theorem fuzz_self_space_counterexample :
    (" " : String) ≠ "" ∧ fuzzScore " " " " = 30 ∧ fuzzScore " " " " ≠ 100 := by
  decide

/-- C8 (amended): the combined similarity score is symmetric in its two
arguments for all strings, and the self-score is 100 for every string
with at least one character that tokenisation does not blank out (an
alphanumeric or underscore character). -/
theorem fuzz_score_symm_and_self :
    (∀ a b : String, fuzzScore a b = fuzzScore b a) ∧
    (∀ s : String, (∃ c ∈ s.data, processChar c ≠ ' ') →
      fuzzScore s s = 100) :=
  ⟨fuzzScore_comm, fuzzScore_self⟩

/-- C8 witness: symmetry and self-score at concrete strings. -/
theorem fuzz_score_symm_and_self_witness :
    fuzzScore "total revenue" "revenue" = fuzzScore "revenue" "total revenue" ∧
    fuzzScore "cash" "cash" = 100 :=
  ⟨fuzz_score_symm_and_self.1 "total revenue" "revenue",
    fuzz_score_symm_and_self.2 "cash" ⟨'c', by decide, by decide⟩⟩

theorem map_label_comp {f : MappingEntry → MappingEntry}
    (hf : ∀ e, (f e).label = e.label) (l : List MappingEntry) :
    (l.map f).map (fun e => e.label) = l.map (fun e => e.label) := by
  rw [List.map_map]
  have hcomp : ((fun e : MappingEntry => e.label) ∘ f) =
      fun e : MappingEntry => e.label := funext hf
  rw [hcomp]

theorem pass1_labels (ai : List String → Option RawResponse)
    (accounts : AccountMap) (labels : List String) (batchSize : Nat)
    (hb : batchSize ≠ 0) :
    (((chunksOf batchSize labels).map (map_batch ai accounts)).flatten).map
      (fun e => e.label) = labels := by
  rw [List.map_flatten (fun e : MappingEntry => e.label)
    ((chunksOf batchSize labels).map (map_batch ai accounts))]
  rw [List.map_map]
  have h1 : (chunksOf batchSize labels).map
      (List.map (fun e : MappingEntry => e.label) ∘ map_batch ai accounts) =
      (chunksOf batchSize labels).map id :=
    List.map_congr_left fun b _ => map_batch_labels ai accounts b
  rw [h1, List.map_id, chunksOf_flatten batchSize labels hb]

/-- C2: every strategy returns exactly one mapping entry per input label,
in input order — projecting the labels of the output recovers the input
label list, for the structured strategy, the fuzzy strategy and the full
AI pipeline (any oracle behaviour, any double-check setting, any positive
batch size). -/
theorem matcher_completeness (labels : List String) (accounts : AccountMap)
    (ai : List String → Option RawResponse) (oracle : Oracle)
    (batchSize : Nat) (doubleCheck : Bool) (hb : batchSize ≠ 0) :
    (create_structured_mappings labels accounts).map (fun e => e.label) =
      labels ∧
    (match_accounts_fuzzy labels accounts).map (fun e => e.label) = labels ∧
    (create_mappings ai oracle labels accounts batchSize doubleCheck).map
      (fun e => e.label) = labels := by
  refine ⟨map_label_of_entry (structuredEntry_label accounts) labels,
    map_label_of_entry (fuzzyMatchEntry_label accounts "") labels, ?_⟩
  unfold create_mappings validate_and_enhance
  cases doubleCheck with
  | false =>
    simp only [Bool.false_eq_true, if_false]
    rw [map_label_comp validateEntry_label]
    exact pass1_labels ai accounts labels batchSize hb
  | true =>
    simp only [if_true]
    unfold double_check_uncertain
    rw [map_label_comp (doubleCheckEntry_label oracle accounts),
      map_label_comp validateEntry_label]
    exact pass1_labels ai accounts labels batchSize hb

/-- C2 witness: completeness at a concrete run. -/
theorem matcher_completeness_witness :
    (create_structured_mappings ["Cash"] [("Revenue", 7)]).map
      (fun e => e.label) = ["Cash"] ∧
    (match_accounts_fuzzy ["Cash"] [("Revenue", 7)]).map
      (fun e => e.label) = ["Cash"] ∧
    (create_mappings (fun _ => some []) (fun _ _ => none) ["Cash"]
      [("Revenue", 7)] 20 true).map (fun e => e.label) = ["Cash"] :=
  matcher_completeness ["Cash"] [("Revenue", 7)] (fun _ => some [])
    (fun _ _ => none) 20 true (by decide)

/-- C10: every entry produced by the AI pipeline (first-pass parsing with
closest-match repair, fuzzy fallback, validation, second-pass
re-validation) carries a matched account that is either empty or an
exact key of the input account map. -/
theorem pipeline_matched_account_exists
    (ai : List String → Option RawResponse) (oracle : Oracle)
    (labels : List String) (accounts : AccountMap) (batchSize : Nat)
    (doubleCheck : Bool) (e : MappingEntry)
    (he : e ∈ create_mappings ai oracle labels accounts batchSize doubleCheck) :
    e.matchedAccount = "" ∨ (lookupAccount accounts e.matchedAccount).isSome := by
  suffices h : accountOk accounts e.matchedAccount from h
  unfold create_mappings at he
  have hflat : ∀ e0 : MappingEntry,
      e0 ∈ ((chunksOf batchSize labels).map (map_batch ai accounts)).flatten →
      accountOk accounts e0.matchedAccount := by
    intro e0 h0
    obtain ⟨l, hl, hel⟩ := List.mem_flatten.mp h0
    obtain ⟨batch, _, hbatch⟩ := List.mem_map.mp hl
    rw [← hbatch] at hel
    exact map_batch_ok ai accounts batch e0 hel
  cases doubleCheck with
  | false =>
    simp only [Bool.false_eq_true, if_false] at he
    unfold validate_and_enhance at he
    obtain ⟨e0, h0, he0⟩ := List.mem_map.mp he
    rw [← he0]
    exact validateEntry_ok accounts e0 (hflat e0 h0)
  | true =>
    simp only [if_true] at he
    unfold double_check_uncertain validate_and_enhance at he
    obtain ⟨e1, h1, he1⟩ := List.mem_map.mp he
    obtain ⟨e0, h0, he0⟩ := List.mem_map.mp h1
    rw [← he1, ← he0]
    exact doubleCheckEntry_ok oracle accounts _
      (validateEntry_ok accounts e0 (hflat e0 h0))

/-- C10 witness: the invariant at a concrete run whose oracle proposes a
known account. -/
theorem pipeline_matched_account_exists_witness :
    (⟨"⚠️", "Net Sales", "Cash", 5, "Medium", 80, "r", ""⟩ :
      MappingEntry).matchedAccount = "" ∨
    (lookupAccount [("Cash", 5)]
      (⟨"⚠️", "Net Sales", "Cash", 5, "Medium", 80, "r", ""⟩ :
        MappingEntry).matchedAccount).isSome :=
  pipeline_matched_account_exists
    (fun _ => some [("Net Sales", ⟨"Cash", 80, "r"⟩)]) (fun _ _ => none)
    ["Net Sales"] [("Cash", 5)] 20 false
    ⟨"⚠️", "Net Sales", "Cash", 5, "Medium", 80, "r", ""⟩ (by decide)

theorem structuredEntry_nil (label : String) :
    (structuredEntry [] label).matchedAccount = "" ∧
    (structuredEntry [] label).value = 0 ∧
    (structuredEntry [] label).confidence = "Low" :=
  ⟨rfl, rfl, rfl⟩

theorem fuzzyMatchEntry_nil (reasoning label : String) :
    (fuzzyMatchEntry [] reasoning label).matchedAccount = "" ∧
    (fuzzyMatchEntry [] reasoning label).value = 0 ∧
    (fuzzyMatchEntry [] reasoning label).confidence = "Low" :=
  ⟨rfl, rfl, rfl⟩

/-- C5 counterexample: matching a label list against an empty account set
does not fail — both SmartMatcher strategies return a complete mapping
with one all-unmatched Low row per label. -/
theorem empty_accounts_mapping_produced :
    create_structured_mappings ["Cash"] [] =
      [⟨"❌", "Cash", "", 0, "Low", 0, "", "Asset"⟩] ∧
    match_accounts_fuzzy ["Cash"] [] =
      [⟨"❌", "Cash", "", 0, "Low", 0, "", ""⟩] := by
  decide

/-- C5 (amended): only the EnhancedAIProcessor path rejects an empty
account set before matching; the SmartMatcher structured and fuzzy
strategies instead return one unmatched entry (empty matched account,
value 0, tier Low) per input label. -/
theorem empty_accounts_behaviour (labels : List String) :
    enhanced_mapping_input_check labels [] =
      Except.error
        "No data accounts provided. Please ensure your data file contains valid financial data." ∧
    (∀ e ∈ create_structured_mappings labels [],
      e.matchedAccount = "" ∧ e.value = 0 ∧ e.confidence = "Low") ∧
    (∀ e ∈ match_accounts_fuzzy labels [],
      e.matchedAccount = "" ∧ e.value = 0 ∧ e.confidence = "Low") ∧
    (create_structured_mappings labels []).length = labels.length ∧
    (match_accounts_fuzzy labels []).length = labels.length := by
  refine ⟨rfl, ?_, ?_, ?_, ?_⟩
  · intro e he
    obtain ⟨l, _, hl⟩ := List.mem_map.mp he
    rw [← hl]
    exact structuredEntry_nil l
  · intro e he
    obtain ⟨l, _, hl⟩ := List.mem_map.mp he
    rw [← hl]
    exact fuzzyMatchEntry_nil "" l
  · exact List.length_map labels _
  · exact List.length_map labels _

/-- C5 witness: the amended behaviour at a concrete label list. -/
theorem empty_accounts_behaviour_witness :
    enhanced_mapping_input_check ["Cash"] [] =
      Except.error
        "No data accounts provided. Please ensure your data file contains valid financial data." ∧
    (∀ e ∈ create_structured_mappings ["Cash"] [],
      e.matchedAccount = "" ∧ e.value = 0 ∧ e.confidence = "Low") ∧
    (∀ e ∈ match_accounts_fuzzy ["Cash"] [],
      e.matchedAccount = "" ∧ e.value = 0 ∧ e.confidence = "Low") ∧
    (create_structured_mappings ["Cash"] []).length = (["Cash"]).length ∧
    (match_accounts_fuzzy ["Cash"] []).length = (["Cash"]).length :=
  empty_accounts_behaviour ["Cash"]

/-- C7: in the structured strategy, when the chosen best match has the
label's own category, the stored score is the blended similarity boosted
by 10% and capped at 100 (hundredth-exact arithmetic, truncated to an
integer), and the tier is High exactly when the stored score is at least
85, Medium exactly when it is in [65, 85), and Low exactly when it is
below 65. -/
theorem structured_category_boost (accounts : AccountMap) (label m : String)
    (h1 : (bestBlendedMatch label (structuredCandidates accounts label)).1 =
      some m)
    (h2 : categorize_account m = categorize_account label) :
    (structuredEntry accounts label).score =
      ((min 10000
        ((bestBlendedMatch label (structuredCandidates accounts label)).2 *
          11 / 10) / 100 : Nat) : Int) ∧
    ((structuredEntry accounts label).confidence = "High" ↔
      85 ≤ (structuredEntry accounts label).score) ∧
    ((structuredEntry accounts label).confidence = "Medium" ↔
      (65 ≤ (structuredEntry accounts label).score ∧
        (structuredEntry accounts label).score < 85)) ∧
    ((structuredEntry accounts label).confidence = "Low" ↔
      (structuredEntry accounts label).score < 65) := by
  simp only [structuredEntry]
  rw [h1]
  dsimp only
  rw [if_pos h2]
  set n : Nat := min 10000
    ((bestBlendedMatch label (structuredCandidates accounts label)).2 *
      11 / 10) with hn
  by_cases h85 : 8500 ≤ n
  · simp only [if_pos h85]
    refine ⟨by simp, ?_, ?_, ?_⟩ <;> simp <;> omega
  · by_cases h65 : 6500 ≤ n
    · simp only [if_neg h85, if_pos h65]
      refine ⟨by simp, ?_, ?_, ?_⟩ <;> simp <;> omega
    · simp only [if_neg h85, if_neg h65]
      refine ⟨by simp, ?_, ?_, ?_⟩ <;> simp <;> omega

/-- C7 witness: the boost and tiers at a concrete same-category match. -/
theorem structured_category_boost_witness :
    (structuredEntry [("cash", 1)] "cash").score =
      ((min 10000
        ((bestBlendedMatch "cash" (structuredCandidates [("cash", 1)] "cash")).2 *
          11 / 10) / 100 : Nat) : Int) ∧
    ((structuredEntry [("cash", 1)] "cash").confidence = "High" ↔
      85 ≤ (structuredEntry [("cash", 1)] "cash").score) ∧
    ((structuredEntry [("cash", 1)] "cash").confidence = "Medium" ↔
      (65 ≤ (structuredEntry [("cash", 1)] "cash").score ∧
        (structuredEntry [("cash", 1)] "cash").score < 85)) ∧
    ((structuredEntry [("cash", 1)] "cash").confidence = "Low" ↔
      (structuredEntry [("cash", 1)] "cash").score < 65) :=
  structured_category_boost [("cash", 1)] "cash" "cash" (by decide) (by decide)

/-- C1: evaluation of the full AI pipeline at the failing input.  The
first pass matches `"Net Income"` to `"Cash"` (value 500, tier Medium);
the second pass accepts an oracle proposal `"zzz"` that repair turns into
the empty account, clears the match and rescores the row — but leaves the
`Value (2025)` column at 500.  The final row violates the stated
invariant: its matched account is empty while its value is 500, not 0. -/
theorem second_pass_value_staleness :
    create_mappings (fun _ => some [("Net Income", ⟨"Cash", 80, "first"⟩)])
      (fun _ _ => some ⟨"zzz", 20, "second"⟩) ["Net Income"] [("Cash", 500)]
      20 true =
      [⟨"❌", "Net Income", "", 500, "Low", 20, "second [Re-validated]", ""⟩] ∧
    ((500 : Int) ≠ 0) := by
  decide
